import Mathlib

/-!
# Augur UI: the market selector and the configuration actions

A shallow embedding of

* `src/modules/markets/selectors/market.js`: the memoized `assembleMarket`
  selector, its per-market cache `assembledMarketsCache` and `getOutcomeName`;
* `app/actions/ConfigActions.js`: the `connect`, `connectHosted` and
  `teardownFilters` actions and the price callback of `setupFilters`;
* `src/modules/filter-sort/components/filter-dropdowns/filter-dropdowns.jsx`: the
  change handlers of the component `FilterSearch`.

JavaScript objects are records, `undefined`/`null` is `Option.none`, and what an
action does to the outside (console, dispatcher, blockchain client) is the list of its
events in order. Helpers and constants that the selector imports from other modules
are fields of `Helpers`.
-/

namespace Augur

/-! ## Values -/

/-- A JavaScript primitive that is a number or a string. -/
inductive JsVal where
  | num (q : ℚ)
  | str (s : String)
  deriving DecidableEq, Repr

/-- JavaScript truthiness of a number or string: `0` and `""` are falsy. -/
def JsVal.truthy : JsVal → Bool
  | .num q => q != 0
  | .str s => s != ""

/-- Truthiness of a value that may be `undefined`. -/
def truthy (v : Option JsVal) : Bool :=
  match v with
  | none => false
  | some x => x.truthy

/-- Truthiness of a string that may be `undefined`. -/
def truthyStr (v : Option String) : Bool :=
  match v with
  | none => false
  | some s => s != ""

/-- An object that the selector only hands on to helpers: it is known by its identity. -/
structure Ref where
  id : Nat
  deriving DecidableEq, Repr

/-- Market ids are contract addresses; an address is modelled by its number. -/
abbrev MarketId := Nat

/-- The value of `marketData.marketType`: one of the three constants of
`modules/common-elements/constants`, or anything else (`undefined` included). -/
inductive MarketType where
  | YES_NO
  | CATEGORICAL
  | SCALAR
  | other (s : String)
  deriving DecidableEq, Repr

/-- The value of `marketData.reportingState`, against `constants.REPORTING_STATE`. -/
inductive ReportingState where
  | PRE_REPORTING
  | AWAITING_FINALIZATION
  | FINALIZED
  | other (s : String)
  deriving DecidableEq, Repr

/-- The three values of `market.marketStatus`. -/
inductive MarketStatus where
  | MARKET_OPEN
  | MARKET_REPORTING
  | MARKET_CLOSED
  deriving DecidableEq, Repr

/-- The object returned by `convertUnixToFormattedDate` (`utils/format-date`): the
source reads its `value` (a `Date`, here its time value) and its `timestamp`. -/
structure FormattedDate where
  value : Int
  timestamp : Int
  formatted : String
  deriving DecidableEq, Repr

/-- The field `marketData.consensus`. -/
structure Consensus where
  payout : List Int
  isInvalid : Bool
  proportionCorrect : Option JsVal
  deriving DecidableEq, Repr

/-- The object `marketData`: the fields of the raw market that the selector reads. -/
structure MarketData where
  description : Option String
  marketType : MarketType
  type : Option MarketType
  scalarDenomination : Option String
  endTime : Int
  creationTime : Int
  reportingState : ReportingState
  resolutionSource : Option String
  numOutcomes : Nat
  tags : Option (List (Option String))
  consensus : Option Consensus
  deriving DecidableEq, Repr

/-- The argument `marketLoading`: `null` or an object with a `state`. -/
structure MarketLoading where
  state : String
  deriving DecidableEq, Repr

/-- One value of `marketOutcomesData`. -/
structure OutcomeData where
  description : Option String
  volume : Option JsVal
  price : Option JsVal
  deriving DecidableEq, Repr

/-- The argument `marketReport`. -/
structure MarketReport where
  marketId : MarketId
  reportedOutcomeId : Option JsVal
  deriving DecidableEq, Repr

/-- The argument `loginAccount`. -/
structure LoginAccount where
  address : Option String
  deriving DecidableEq, Repr

/-- An open or pending order, as the order selectors return it. -/
structure Order where
  id : String
  deriving DecidableEq, Repr

/-- A filled order: the selector reads `timestamp.timestamp`. -/
structure FilledOrder where
  id : String
  timestamp : FormattedDate
  deriving DecidableEq, Repr

/-- The 21 arguments of `assembleMarket`. An object argument with keys is the list
of its entries in the order of `Object.keys`. -/
structure Args where
  marketId : MarketId
  marketData : MarketData
  marketLoading : Option MarketLoading
  marketPriceHistory : Option Ref
  isOpen : Bool
  isExpired : Bool
  isFavorite : Bool
  marketOutcomesData : Option (List (String × OutcomeData))
  marketReport : Option MarketReport
  marketAccountPositions : Ref
  marketAccountTrades : Option Ref
  endTimeYear : Int
  endTimeMonth : Int
  endTimeDay : Int
  currentReportingWindowAddress : Option String
  orderBooks : Option Ref
  orderCancellation : Option Ref
  smallestPosition : Option Ref
  loginAccount : LoginAccount
  pendingOrders : Option (List Order)
  dispatch : Ref
  deriving DecidableEq, Repr

/-! ## The view model -/

/-- An element of `market.outcomes`: the outcome data, with `id` and `marketId`. -/
structure Outcome where
  id : String
  marketId : MarketId
  data : OutcomeData
  deriving DecidableEq, Repr

/-- An element of `market.reportableOutcomes`. -/
structure ReportableOutcome where
  id : String
  name : String
  deriving DecidableEq, Repr

/-- The object `market.consensus`. -/
structure MarketConsensus where
  payout : List Int
  isInvalid : Bool
  proportionCorrect : Option JsVal
  winningOutcome : Option (Option String)
  outcomeName : Option String
  percentCorrect : Option String
  deriving DecidableEq, Repr

/-- The market view model. A field the body may leave unset is an `Option`. -/
structure Market where
  id : MarketId
  description : String
  marketType : MarketType
  type : Option MarketType
  isYesNo : Option Bool
  isCategorical : Option Bool
  isScalar : Option Bool
  scalarDenomination : Option String
  loadingState : Option String
  endTime : FormattedDate
  endTimeLabel : String
  creationTime : FormattedDate
  isOpen : Bool
  isFavorite : Bool
  marketStatus : MarketStatus
  resolutionSource : Option String
  isRequiredToReportByAccount : Bool
  isPendingReport : Bool
  isReported : Bool
  isReportTabVisible : Bool
  userOpenOrders : List Order
  outcomes : List Outcome
  filledOrders : Option (List FilledOrder)
  recentlyTraded : Option FormattedDate
  tags : List (Option String)
  reportableOutcomes : List ReportableOutcome
  consensus : Option MarketConsensus
  deriving DecidableEq, Repr

/-- The slice of the store state that the assembly body reads:
`selectCurrentTimestamp(store.getState())`. -/
structure Store where
  currentTimestamp : Int
  deriving DecidableEq, Repr

/-- What `market.js` imports from modules that are not part of this development:
constants of `modules/common-elements/constants`, the date helper, the order and
report selectors and the number formatting. -/
structure Helpers where
  YES_NO_YES_OUTCOME_NAME : String
  INDETERMINATE_OUTCOME_NAME : String
  YES_NO_INDETERMINATE_OUTCOME_ID : String
  CATEGORICAL_SCALAR_INDETERMINATE_OUTCOME_ID : String
  convertUnixToFormattedDate : Int → FormattedDate
  selectUserOpenOrders : MarketId → String → Option Ref → Option Ref → String → String → List Order
  selectFilledOrders :
    Option Ref → Option String → List (String × OutcomeData) → Market → List Order → List FilledOrder
  selectReportableOutcomes : MarketType → List Outcome → List ReportableOutcome
  calculatePayoutNumeratorsValue : Market → List Int → Bool → Option String
  createBigNumber : JsVal → ℚ
  formatPercent : ℚ → String

/-! ## Built-ins of the language -/

/-- The relational operator `a < b` on numbers; a comparison with `NaN` is false. -/
def jsLt : Option Int → Option Int → Bool
  | some a, some b => decide (a < b)
  | _, _ => false

/-- The relational operator `a <= b` on numbers; a comparison with `NaN` is false. -/
def jsLe : Option Int → Option Int → Bool
  | some a, some b => decide (a ≤ b)
  | _, _ => false

/-- The number a formatted date converts to when a relational operator compares it.
The date helper returns a plain object that wraps the `Date` under `value` (lines 111
and 132 read `endTime.value.getFullYear()`); its primitive value is the string
`[object Object]`, which is not a number: the result is `NaN` (`none`). -/
def FormattedDate.toNumber (_ : FormattedDate) : Option Int := none

/-- The value of a run of decimal digits, most significant first. -/
def digitsValue (cs : List Char) : Nat :=
  cs.foldl (fun acc c => 10 * acc + (c.toNat - 48)) 0

/-- The built-in `parseInt(s, 10)` over unbounded integers: leading white space (blank,
tab, line breaks) is skipped, one sign is read, then the longest run of decimal digits;
without a digit the result is `NaN` (`none`). -/
def parseInt (s : String) : Option Int :=
  let cs := s.toList.dropWhile Char.isWhitespace
  let signed : Bool × List Char :=
    match cs with
    | '-' :: rest => (true, rest)
    | '+' :: rest => (false, rest)
    | _ => (false, cs)
  let ds := signed.2.takeWhile Char.isDigit
  if ds.isEmpty then none
  else if signed.1 then some (-(digitsValue ds : Int)) else some (digitsValue ds : Int)

/-- The step `SortCompare` of `Array.prototype.sort`: a comparator result `NaN` counts
as `+0`. -/
def sortCompare {α : Type} (comparefn : α → α → Option Int) (x y : α) : Int :=
  (comparefn x y).getD 0

/-- Insertion of `x` in front of the first element that does not sort before it. -/
def sortInsert {α : Type} (comparefn : α → α → Option Int) (x : α) : List α → List α
  | [] => [x]
  | y :: ys =>
    if sortCompare comparefn x y ≤ 0 then x :: y :: ys
    else y :: sortInsert comparefn x ys

/-- The built-in `Array.prototype.sort(comparefn)`, as a stable insertion sort. The
language fixes the result for a consistent comparator (it is stable); for the others
this is one of the orders an engine may produce. -/
def arraySort {α : Type} (comparefn : α → α → Option Int) : List α → List α
  | [] => []
  | x :: xs => sortInsert comparefn x (arraySort comparefn xs)

/-! ## `market.js` -/

/-- The function `getOutcomeName(market, outcome)`. -/
def getOutcomeName (h : Helpers) (market : Market) (outcome : OutcomeData) : String :=
  let outcomeName :=
    if market.isYesNo = some true then h.YES_NO_YES_OUTCOME_NAME
    else if truthyStr outcome.description then outcome.description.getD "N/A" else "N/A"
  if market.isScalar = some true then
    (if truthyStr market.scalarDenomination then market.scalarDenomination.getD "N/A" else "N/A")
  else outcomeName

/-- The comparator of the outcome sort: `parseInt(a.id, 10) - parseInt(b.id, 10)`. -/
def compareOutcomes (a b : Outcome) : Option Int :=
  match parseInt a.id, parseInt b.id with
  | some x, some y => some (x - y)
  | _, _ => none

/-- Lines 197-299 of the memoized body: the fields set before the orders and outcomes
are assembled. The fields assigned later hold their empty value. -/
def assembleHead (h : Helpers) (store : Store) (a : Args) : Market :=
  let marketData := a.marketData
  let now : Option Int := some store.currentTimestamp
  let endTime := h.convertUnixToFormattedDate marketData.endTime
  let isRequiredToReportByAccount := a.marketReport.isSome
  let reported : Bool :=
    match a.marketReport with
    | some r => truthy r.reportedOutcomeId
    | none => false
  { id := a.marketId
    description := marketData.description.getD ""
    marketType := marketData.marketType
    type := marketData.type
    isYesNo :=
      match marketData.marketType with
      | .YES_NO => some true
      | .CATEGORICAL => some false
      | .SCALAR => some false
      | .other _ => none
    isCategorical :=
      match marketData.marketType with
      | .YES_NO => some false
      | .CATEGORICAL => some true
      | .SCALAR => some false
      | .other _ => none
    isScalar :=
      match marketData.marketType with
      | .YES_NO => some false
      | .CATEGORICAL => some false
      | .SCALAR => some true
      | .other _ => none
    scalarDenomination :=
      match marketData.marketType with
      | .YES_NO => none
      | .CATEGORICAL => none
      | .SCALAR => marketData.scalarDenomination
      | .other _ => marketData.scalarDenomination
    loadingState := a.marketLoading.map MarketLoading.state
    endTime := endTime
    endTimeLabel := if jsLt endTime.toNumber now then "expired" else "expires"
    creationTime := h.convertUnixToFormattedDate marketData.creationTime
    isOpen := a.isOpen
    isFavorite := a.isFavorite
    marketStatus :=
      match marketData.reportingState with
      | .PRE_REPORTING => .MARKET_OPEN
      | .AWAITING_FINALIZATION => .MARKET_CLOSED
      | .FINALIZED => .MARKET_CLOSED
      | .other _ => .MARKET_REPORTING
    resolutionSource :=
      if truthyStr marketData.resolutionSource then marketData.resolutionSource else none
    isRequiredToReportByAccount := isRequiredToReportByAccount
    isPendingReport := isRequiredToReportByAccount && !reported
    isReported := isRequiredToReportByAccount && reported
    isReportTabVisible := isRequiredToReportByAccount
    userOpenOrders := []
    outcomes := []
    filledOrders := none
    recentlyTraded := none
    tags := marketData.tags.getD []
    reportableOutcomes := []
    consensus := none }

/-- Lines 348-366: `market.userOpenOrders`, the open orders of every outcome, empty
collections dropped, followed by the pending orders when there are some. -/
def assembleUserOpenOrders (h : Helpers) (a : Args) (market : Market) : List Order :=
  let entries := a.marketOutcomesData.getD []
  let collected :=
    ((entries.map fun e =>
        h.selectUserOpenOrders market.id e.1 a.orderBooks a.orderCancellation
          market.description (getOutcomeName h market e.2)).filter
      fun collection => collection.length != 0).flatten
  match a.pendingOrders with
  | some pending => if pending.length > 0 then collected ++ pending else collected
  | none => collected

/-- Lines 368-465: every key of `marketOutcomesData` becomes an outcome, and the list
is sorted with `compareOutcomes`. -/
def assembleOutcomes (a : Args) : List Outcome :=
  arraySort compareOutcomes
    ((a.marketOutcomesData.getD []).map fun e =>
      { id := e.1, marketId := a.marketId, data := e.2 })

/-- Lines 435-441: `market.filledOrders` is assigned inside the callback of the outcome
map, once per key; without a key it is never assigned. -/
def assembleFilledOrders (h : Helpers) (a : Args) (market : Market) : Option (List FilledOrder) :=
  match a.marketOutcomesData.getD [] with
  | [] => none
  | e :: es =>
    some (h.selectFilledOrders a.marketPriceHistory a.loginAccount.address (e :: es) market
      market.userOpenOrders)

/-- Lines 442-446: `market.recentlyTraded`, assigned next to `market.filledOrders`. -/
def assembleRecentlyTraded (h : Helpers) (filledOrders : Option (List FilledOrder)) :
    Option FormattedDate :=
  filledOrders.map fun orders =>
    h.convertUnixToFormattedDate
      (match orders.head? with
       | some first => first.timestamp.timestamp
       | none => 0)

/-- Lines 490-501: the reportable outcomes, with the indeterminate outcome pushed last. -/
def assembleReportableOutcomes (h : Helpers) (market : Market) : List ReportableOutcome :=
  let indeterminateOutcomeId :=
    if market.type = some .YES_NO then h.YES_NO_INDETERMINATE_OUTCOME_ID
    else h.CATEGORICAL_SCALAR_INDETERMINATE_OUTCOME_ID
  h.selectReportableOutcomes market.marketType market.outcomes ++
    [{ id := indeterminateOutcomeId, name := h.INDETERMINATE_OUTCOME_NAME }]

/-- Lines 532-561: `market.consensus`. -/
def assembleConsensus (h : Helpers) (a : Args) (market : Market) : Option MarketConsensus :=
  match a.marketData.consensus with
  | none => none
  | some c =>
    let winningOutcome := h.calculatePayoutNumeratorsValue market c.payout c.isInvalid
    let hasReportable : Bool := market.reportableOutcomes.length != 0
    let marketOutcome :=
      market.reportableOutcomes.find? fun outcome => decide (some outcome.id = winningOutcome)
    some
      { payout := c.payout
        isInvalid := c.isInvalid
        proportionCorrect := c.proportionCorrect
        winningOutcome := if hasReportable then some winningOutcome else none
        outcomeName := if hasReportable then marketOutcome.map ReportableOutcome.name else none
        percentCorrect :=
          match c.proportionCorrect with
          | some p =>
            if p.truthy then some (h.formatPercent (h.createBigNumber p * 100)) else none
          | none => none }

/-- The memoized function of `assembleMarket` (lines 174-564), on the fields of the view
model declared in `Market`. It reads the store once, for the current timestamp. Outside
`Market` are the fields that only format a number of `marketData` (prices, fees, volume,
open interest, creator fees), the two callbacks, `report`, the position summaries and
the price and order book fields of an outcome; a call in which one of those steps
throws returns nothing and stores nothing, and is not a call of this model. -/
def assembleMarketBody (h : Helpers) (store : Store) (a : Args) : Market :=
  let m0 := assembleHead h store a
  let m1 := { m0 with userOpenOrders := assembleUserOpenOrders h a m0 }
  let filledOrders := assembleFilledOrders h a m1
  let m2 :=
    { m1 with
      filledOrders := filledOrders
      recentlyTraded := assembleRecentlyTraded h filledOrders
      outcomes := assembleOutcomes a }
  let m3 := { m2 with tags := m2.tags.filter fun tag => truthyStr tag }
  let m4 := { m3 with reportableOutcomes := assembleReportableOutcomes h m3 }
  { m4 with consensus := assembleConsensus h a m4 }

/-! ## The memoization cache -/

/-- The slot of one market in `assembledMarketsCache`: `memoize(fn, \x7b max: 1 \x7d)`
keeps the arguments and the result of the most recent call that ran the body. -/
structure Entry where
  args : Args
  market : Market
  deriving DecidableEq, Repr

/-- The object `assembledMarketsCache`, from market id to the slot of that market. -/
abbrev Cache := MarketId → Option Entry

/-- The cache when the module is loaded: `const assembledMarketsCache = \x7b\x7d`. -/
def emptyCache : Cache := fun _ => none

/-- The state after a call: the cache, how often the memoized body has run so far, and
the value the call returned. -/
structure Call where
  cache : Cache
  runs : Nat
  market : Market

/-- The function `assembleMarket`: the slot of `marketId` is looked up; when its
arguments are the arguments of this call (identity of each argument, modelled by
equality) its market is returned, otherwise the body runs and the slot is replaced. -/
def assembleMarket (h : Helpers) (store : Store) (cache : Cache) (runs : Nat) (a : Args) : Call :=
  match cache a.marketId with
  | some entry =>
    if entry.args = a then { cache := cache, runs := runs, market := entry.market }
    else
      let market := assembleMarketBody h store a
      { cache := Function.update cache a.marketId (some { args := a, market := market })
        runs := runs + 1
        market := market }
  | none =>
    let market := assembleMarketBody h store a
    { cache := Function.update cache a.marketId (some { args := a, market := market })
      runs := runs + 1
      market := market }

/-- A sequence of calls of `assembleMarket`, each with the store state at its time:
the cache and the run count after the last one. -/
def assembleMarkets (h : Helpers) : List (Store × Args) → Cache × Nat → Cache × Nat
  | [], st => st
  | c :: cs, st =>
    let r := assembleMarket h c.1 st.1 st.2 c.2
    assembleMarkets h cs (r.cache, r.runs)

/-! ## Sample inputs -/

/-- An instance of the imported helpers: the formatted date of a Unix time holds the
time value in milliseconds, the selectors find no orders, and the reportable outcomes
are the outcomes. -/
def timeValueHelpers : Helpers :=
  { YES_NO_YES_OUTCOME_NAME := "Yes"
    INDETERMINATE_OUTCOME_NAME := "Indeterminate"
    YES_NO_INDETERMINATE_OUTCOME_ID := "0.5"
    CATEGORICAL_SCALAR_INDETERMINATE_OUTCOME_ID := "0.5"
    convertUnixToFormattedDate := fun t => { value := t * 1000, timestamp := t, formatted := "" }
    selectUserOpenOrders := fun _ _ _ _ _ _ => []
    selectFilledOrders := fun _ _ _ _ _ => []
    selectReportableOutcomes := fun _ outcomes =>
      outcomes.map fun o => { id := o.id, name := o.data.description.getD "" }
    calculatePayoutNumeratorsValue := fun _ _ _ => none
    createBigNumber := fun v =>
      match v with
      | .num q => q
      | .str _ => 0
    formatPercent := fun _ => "%" }

/-- A raw yes/no market that ends at Unix time 2000, without consensus. -/
def sampleMarketData : MarketData :=
  { description := some "Will it rain?"
    marketType := .YES_NO
    type := none
    scalarDenomination := none
    endTime := 2000
    creationTime := 1000
    reportingState := .PRE_REPORTING
    resolutionSource := none
    numOutcomes := 2
    tags := none
    consensus := none }

/-- An argument list for market 1 over `sampleMarketData`, with outcomes `0` and `1`. -/
def sampleArgs : Args :=
  { marketId := 1
    marketData := sampleMarketData
    marketLoading := none
    marketPriceHistory := none
    isOpen := true
    isExpired := false
    isFavorite := false
    marketOutcomesData :=
      some [("0", { description := some "No", volume := none, price := none }),
            ("1", { description := some "Yes", volume := none, price := none })]
    marketReport := none
    marketAccountPositions := { id := 0 }
    marketAccountTrades := none
    endTimeYear := 1970
    endTimeMonth := 0
    endTimeDay := 1
    currentReportingWindowAddress := none
    orderBooks := none
    orderCancellation := none
    smallestPosition := none
    loginAccount := { address := none }
    pendingOrders := none
    dispatch := { id := 0 } }

/-- The sample argument list with the outcome keys `1` and `a`. -/
def unparsableArgs : Args :=
  { sampleArgs with
    marketOutcomesData :=
      some [("1", { description := some "Yes", volume := none, price := none }),
            ("a", { description := some "Other", volume := none, price := none })] }

/-- A categorical market whose consensus carries a proportion of correct reports. -/
def categoricalConsensusArgs : Args :=
  { sampleArgs with
    marketData :=
      { sampleMarketData with
        marketType := .CATEGORICAL
        consensus :=
          some { payout := [0, 10000, 0], isInvalid := false, proportionCorrect := some (.str "0.9") } } }

/-- The sample argument list with a report on outcome `0`, the id being the number 0. -/
def reportedZeroArgs : Args :=
  { sampleArgs with marketReport := some { marketId := 1, reportedOutcomeId := some (.num 0) } }

/-- The sample argument list without `marketOutcomesData` (`undefined`). -/
def noOutcomesArgs : Args :=
  { sampleArgs with marketOutcomesData := none }

/-- The sample argument list with an empty `marketOutcomesData` object. -/
def emptyOutcomesArgs : Args :=
  { sampleArgs with marketOutcomesData := some [] }

/-- The helpers of `timeValueHelpers` with a selector that finds two filled orders, the
more recent one first. -/
def filledOrderHelpers : Helpers :=
  { timeValueHelpers with
    selectFilledOrders := fun _ _ _ _ _ =>
      [{ id := "b", timestamp := { value := 1700000, timestamp := 1700, formatted := "" } },
       { id := "a", timestamp := { value := 1500000, timestamp := 1500, formatted := "" } }] }

/-! ## `ConfigActions.js` -/

/-- The actions that `ConfigActions.js` dispatches in `connect` and `teardownFilters`. -/
inductive Action where
  | SET_IS_HOSTED (isHosted : Bool)
  | FILTER_TEARDOWN_COMPLETE
  deriving DecidableEq, Repr

/-- What an action creator does to the outside, one event per call. -/
inductive Event where
  | consoleError (message : String)
  | consoleLog (message : String)
  | checkNetwork
  | rpcReset
  | rpcSetLocalNode (host : String)
  | rpcSetBalancing (excision : Bool) (balancer : Bool)
  | augurConnect (host : Option String)
  | filtersIgnore (uninstall : Bool)
  | dispatch (action : Action)
  deriving DecidableEq, Repr

/-- The blockchain client `flux.augur` as the connect actions observe it: what
`augur.connect` reports to its callback for a target (`none` is the hosted target
`null`), and the node lists `augur.rpc.nodes` read inside the callbacks. -/
structure Client where
  connected : Option String → Bool
  nodesHosted : List String
  nodesLocal : Option String

/-- The callback `connectHostedCb` of `connect`; `cb(false)` is `none`. -/
def connectHostedCb (host : Option String) : List Event :=
  if !truthyStr host then [.consoleError "Couldn't connect to hosted node:"]
  else [.consoleLog "connected to host:", .checkNetwork]

/-- The action `connectHosted(cb)`. -/
def connectHosted (augur : Client) (cb : Option String → List Event) : List Event :=
  let connected := augur.connected none
  let many : Bool := decide (augur.nodesHosted.length > 1)
  [.rpcReset, .augurConnect none, .rpcSetBalancing many many,
    .dispatch (.SET_IS_HOSTED connected)] ++
  (if !connected then cb none else cb augur.nodesHosted.head?)

/-- The action `connect(hosted)`; `host` is `flux.store("config").getState().host`. -/
def connect (augur : Client) (host : Option String) (hosted : Bool) : List Event :=
  if hosted then connectHosted augur connectHostedCb
  else
    match host with
    | none => connectHosted augur connectHostedCb
    | some hostName =>
      if !truthyStr (some hostName) then connectHosted augur connectHostedCb
      else
        [.rpcSetLocalNode hostName, .augurConnect (some hostName)] ++
        (if augur.connected (some hostName) then
          [.consoleLog "connected to host:"] ++
          (if !truthyStr augur.nodesLocal then [.dispatch (.SET_IS_HOSTED true)] else []) ++
          [.checkNetwork]
        else connectHosted augur connectHostedCb)

/-- The targets of the calls of `augur.connect` in a trace, in order. -/
def connectAttempts (trace : List Event) : List (Option String) :=
  trace.filterMap fun e =>
    match e with
    | .augurConnect host => some host
    | _ => none

/-- The state `filters` of the config store: each filter is an object or unset. -/
structure Filters where
  price : Option Ref
  creation : Option Ref
  contracts : Option Ref
  block : Option Ref
  deriving DecidableEq, Repr

/-- The guard of `teardownFilters`: none of the four filters is set. -/
def Filters.noneSet (filters : Filters) : Bool :=
  !filters.price.isSome && !filters.creation.isSome && !filters.contracts.isSome &&
    !filters.block.isSome

/-- The action `teardownFilters()`; `err` is what `augur.filters.ignore` hands to its
callback. -/
def teardownFilters (filters : Filters) (err : Option String) : List Event :=
  if filters.noneSet then [.dispatch .FILTER_TEARDOWN_COMPLETE]
  else
    [.filtersIgnore true] ++
    (match err with
     | some e => if e != "" then [.consoleError ("teardown filters: " ++ e)] else []
     | none => []) ++
    [.dispatch .FILTER_TEARDOWN_COMPLETE]

/-- The number of calls of `augur.filters.ignore` in a trace. -/
def ignoreCalls (trace : List Event) : Nat :=
  (trace.filter fun e =>
    match e with
    | .filtersIgnore _ => true
    | _ => false).length

/-- A trace without its console output. -/
def withoutConsole (trace : List Event) : List Event :=
  trace.filter fun e =>
    match e with
    | .consoleError _ => false
    | .consoleLog _ => false
    | _ => true

/-- The messages of the calls of `console.error` in a trace, in order. -/
def consoleErrors (trace : List Event) : List String :=
  trace.filterMap fun e =>
    match e with
    | .consoleError message => some message
    | _ => none

/-- Filters with every filter set. -/
def allFilters : Filters :=
  { price := some { id := 1 }, creation := some { id := 2 }, contracts := some { id := 3 },
    block := some { id := 4 } }

/-- A client on which no connection attempt succeeds. -/
def unreachableClient : Client :=
  { connected := fun _ => false
    nodesHosted := ["https://eth1.augur.net"]
    nodesLocal := none }

/-- Filters with only the block filter set. -/
def blockFilterOnly : Filters :=
  { price := none, creation := none, contracts := none, block := some { id := 7 } }

/-! ## `ConfigActions.js`: the price callback of `setupFilters` -/

/-- The value of `result.user` and of `getAccount()`: an address, `null` or
`undefined`; `===` is equality of these values. -/
inductive Account where
  | undefined
  | null
  | address (s : String)
  deriving DecidableEq, Repr

/-- The filter result handed to the price callback. `outcome` is the property key that
`result.outcome` selects in `market.trades`. -/
structure PriceResult where
  marketId : Option String
  user : Account
  outcome : String
  price : Int
  deriving DecidableEq, Repr

/-- A market of the flux market store: its `trades` object (unset, or from outcome to the
list of trades) and the rest of the market, known by identity. -/
structure FluxMarket where
  trades : Option (String → Option (List PriceResult))
  rest : Ref

/-- The trades of an outcome in a market: `market.trades[outcome]`, `none` when
`market.trades` or the entry is unset. -/
def FluxMarket.tradesOf (market : FluxMarket) (outcome : String) : Option (List PriceResult) :=
  market.trades.bind fun trades => trades outcome

/-- What the price callback takes from outside `ConfigActions.js`: `abi.bignum` and the
action `market.calculatePnl`. -/
structure MarketActions where
  bignum : String → MarketId
  calculatePnl : FluxMarket → FluxMarket

/-- What the price callback does to the outside, one event per call. -/
inductive PriceEvent where
  | consoleLog (message : String)
  | updateAssets
  | updatePrice (marketId : MarketId)
  | dispatchLoadMarketsSuccess (markets : MarketId → Option FluxMarket) (account : Account)
  | checkOrderBook (market : FluxMarket)

/-- Lines 111-118: the trade is recorded when `result.user === account`. -/
def setupFilters.addTrade (account : Account) (result : PriceResult) (market : FluxMarket) :
    FluxMarket :=
  if result.user = account then
    let trades : String → Option (List PriceResult) := market.trades.getD fun _ => none
    match trades result.outcome with
    | some earlier =>
      { market with trades := some (Function.update trades result.outcome (some (earlier ++ [result]))) }
    | none => { market with trades := some (Function.update trades result.outcome (some [result])) }
  else market

/-- Lines 110-127: the callback that `setupFilters.price` hands to `market.updatePrice`,
called with the market. -/
def setupFilters.priceCallback (x : MarketActions) (account : Account)
    (markets : MarketId → Option FluxMarket) (result : PriceResult) (marketId : MarketId)
    (market : FluxMarket) : List PriceEvent :=
  let market := x.calculatePnl (setupFilters.addTrade account result market)
  [.dispatchLoadMarketsSuccess (Function.update markets marketId (some market)) account,
    .checkOrderBook market]

/-- The callback `price` of `setupFilters` (lines 103-129). `account` is
`getAccount()`, `markets` is the state of the market store, and `loaded` is the market
with which `market.updatePrice` calls its callback, taken to be called once. -/
def setupFilters.price (x : MarketActions) (account : Account)
    (markets : MarketId → Option FluxMarket) (result : Option PriceResult) (loaded : FluxMarket) :
    List PriceEvent :=
  [.consoleLog "[filter] updatePrice:"] ++
  (match result with
   | none => []
   | some r =>
     match r.marketId with
     | none => []
     | some id =>
       if truthyStr (some id) then
         [.updateAssets, .updatePrice (x.bignum id)] ++
           setupFilters.priceCallback x account markets r (x.bignum id) loaded
       else [])

/-- The payloads of the `LOAD_MARKETS_SUCCESS` dispatches in a trace, in order. -/
def loadMarketsPayloads (trace : List PriceEvent) :
    List ((MarketId → Option FluxMarket) × Account) :=
  trace.filterMap fun e =>
    match e with
    | .dispatchLoadMarketsSuccess markets account => some (markets, account)
    | _ => none

/-! ## `filter-dropdowns.jsx` -/

/-- The prop `location` of the router. -/
structure Location where
  pathname : String
  search : String
  hash : String
  state : Option Ref
  key : Option String
  deriving DecidableEq, Repr

/-- A parsed query: the object from parameter name to value, as the list of its
entries. -/
abbrev Query := List (String × String)

/-- What the component imports from `modules/routes`: `parseQuery`, `makeQuery` and the
name of the pagination parameter. -/
structure RouteHelpers where
  parseQuery : String → Query
  makeQuery : Query → String
  PAGINATION_PARAM_NAME : String

/-- The statement `delete query[name]`. -/
def deleteParam (name : String) (query : Query) : Query :=
  query.filter fun e => e.1 != name

/-- The object handed to `updateFilter`. -/
structure FilterOptions where
  filter : String
  sort : String
  maxFee : String
  hidePostV2Markets : Bool
  deriving DecidableEq, Repr

/-- The props of `FilterSearch` that the change handlers read. -/
structure Props where
  filter : String
  sort : String
  maxFee : String
  hidePostV2Markets : Bool
  hasPositionsInCutoffMarkets : Bool
  location : Location
  deriving DecidableEq, Repr

/-- The calls a change handler makes on the function props and on `history`. -/
inductive UiEvent where
  | historyPush (location : Location)
  | updateSortOption (value : String)
  | updateFilterOption (value : String)
  | updateMaxFee (value : String)
  | updateHidePostV2Markets (value : Bool)
  | updateFilter (options : FilterOptions)
  deriving DecidableEq, Repr

/-- The method `goToPageOne()`. -/
def FilterSearch.goToPageOne (r : RouteHelpers) (props : Props) : List UiEvent :=
  let updatedSearch := r.parseQuery props.location.search
  let updatedSearch := deleteParam r.PAGINATION_PARAM_NAME updatedSearch
  [.historyPush { props.location with search := r.makeQuery updatedSearch }]

/-- The method `changeSortDropdown(value)`. -/
def FilterSearch.changeSortDropdown (r : RouteHelpers) (props : Props) (value : String) :
    List UiEvent :=
  FilterSearch.goToPageOne r props ++
    [.updateSortOption value,
     .updateFilter
       { filter := props.filter, sort := value, maxFee := props.maxFee,
         hidePostV2Markets := props.hidePostV2Markets }]

/-- The method `changeFilterDropdown(value)`. -/
def FilterSearch.changeFilterDropdown (r : RouteHelpers) (props : Props) (value : String) :
    List UiEvent :=
  FilterSearch.goToPageOne r props ++
    [.updateFilterOption value,
     .updateFilter
       { filter := value, sort := props.sort, maxFee := props.maxFee,
         hidePostV2Markets := props.hidePostV2Markets }]

/-- The method `changeMaxFees(maxFee)`. -/
def FilterSearch.changeMaxFees (r : RouteHelpers) (props : Props) (maxFee : String) :
    List UiEvent :=
  FilterSearch.goToPageOne r props ++
    [.updateMaxFee maxFee,
     .updateFilter
       { filter := props.filter, sort := props.sort, maxFee := maxFee,
         hidePostV2Markets := props.hidePostV2Markets }]

/-- The method `changeHidePastCutoff()`. -/
def FilterSearch.changeHidePastCutoff (props : Props) : List UiEvent :=
  [.updateHidePostV2Markets (!props.hidePostV2Markets),
   .updateFilter
     { filter := props.filter, sort := props.sort, maxFee := props.maxFee,
       hidePostV2Markets := !props.hidePostV2Markets }]

/-- The method `componentWillReceiveProps(nextProps)`. -/
def FilterSearch.componentWillReceiveProps (props nextProps : Props) : List UiEvent :=
  if nextProps.hasPositionsInCutoffMarkets != props.hasPositionsInCutoffMarkets &&
      nextProps.hasPositionsInCutoffMarkets && props.hidePostV2Markets then
    FilterSearch.changeHidePastCutoff props
  else []

/-- The arguments of the calls of `updateFilter` in a trace, in order. -/
def updateFilterCalls (trace : List UiEvent) : List FilterOptions :=
  trace.filterMap fun e =>
    match e with
    | .updateFilter options => some options
    | _ => none

/-- The arguments of the calls of `updateHidePostV2Markets` in a trace, in order. -/
def updateHideCalls (trace : List UiEvent) : List Bool :=
  trace.filterMap fun e =>
    match e with
    | .updateHidePostV2Markets value => some value
    | _ => none

/-- The locations pushed on `history` in a trace, in order. -/
def historyPushes (trace : List UiEvent) : List Location :=
  trace.filterMap fun e =>
    match e with
    | .historyPush location => some location
    | _ => none

/-- Route helpers over two query strings: `?page=2&tag=x` parses to the parameters
`page` and `tag`, `?tag=x` to `tag`, and the parameter `tag` alone is written `?tag=x`. -/
def tableRouteHelpers : RouteHelpers :=
  { parseQuery := fun search =>
      if search = "?page=2&tag=x" then [("page", "2"), ("tag", "x")]
      else if search = "?tag=x" then [("tag", "x")]
      else []
    makeQuery := fun query => if query = [("tag", "x")] then "?tag=x" else ""
    PAGINATION_PARAM_NAME := "page" }

/-- Props on the second page of the markets list. -/
def sampleProps : Props :=
  { filter := "open"
    sort := "volume"
    maxFee := "1"
    hidePostV2Markets := true
    hasPositionsInCutoffMarkets := false
    location :=
      { pathname := "/markets", search := "?page=2&tag=x", hash := "", state := none, key := none } }

/-- The market actions with the identity for `calculatePnl` and market 7 for every id. -/
def sampleMarketActions : MarketActions :=
  { bignum := fun _ => 7
    calculatePnl := fun market => market }

/-- A price change by the account `0xa` on outcome `2` of a market. -/
def samplePriceResult : PriceResult :=
  { marketId := some "0x7", user := .address "0xa", outcome := "2", price := 50 }

/-- A market with one earlier trade on outcome `2`. -/
def tradedMarket : FluxMarket :=
  { trades :=
      some fun outcome =>
        if outcome = "2" then
          some [{ marketId := some "0x7", user := .address "0xa", outcome := "2", price := 40 }]
        else none
    rest := { id := 7 } }

/-! ## The memoization cache: lemmas -/

/-- After a call, the slot of its market holds the arguments and the returned market. -/
theorem assembleMarket_slot (h : Helpers) (store : Store) (cache : Cache) (runs : Nat) (a : Args) :
    (assembleMarket h store cache runs a).cache a.marketId
      = some { args := a, market := (assembleMarket h store cache runs a).market } := by
  unfold assembleMarket
  split
  · rename_i entry hc
    by_cases he : entry.args = a
    · simp only [he, if_true, hc]
      cases entry
      simp_all
    · simp [he]
  · simp

/-- A call leaves the slots of the other markets as they were. -/
theorem assembleMarket_frame (h : Helpers) (store : Store) (cache : Cache) (runs : Nat) (a : Args)
    (m : MarketId) (hm : a.marketId ≠ m) :
    (assembleMarket h store cache runs a).cache m = cache m := by
  unfold assembleMarket
  split
  · split
    · rfl
    · simp [Function.update, Ne.symm hm]
  · simp [Function.update, Ne.symm hm]

/-- A call whose arguments are in the slot returns the slot's market and changes nothing. -/
theorem assembleMarket_hit (h : Helpers) (store : Store) (cache : Cache) (runs : Nat) (a : Args)
    (market : Market) (hc : cache a.marketId = some { args := a, market := market }) :
    (assembleMarket h store cache runs a).cache = cache ∧
      (assembleMarket h store cache runs a).runs = runs ∧
      (assembleMarket h store cache runs a).market = market := by
  unfold assembleMarket
  simp [hc]

/-- A call whose arguments are not in the slot runs the body once. -/
theorem assembleMarket_miss (h : Helpers) (store : Store) (cache : Cache) (runs : Nat) (a : Args)
    (hc : ∀ entry, cache a.marketId = some entry → entry.args ≠ a) :
    (assembleMarket h store cache runs a).runs = runs + 1 ∧
      (assembleMarket h store cache runs a).market = assembleMarketBody h store a := by
  unfold assembleMarket
  split
  · rename_i entry he
    simp [hc entry he]
  · simp

/-- Calls for other markets leave the slot of `m` as it was. -/
theorem assembleMarkets_frame (h : Helpers) (m : MarketId) :
    ∀ (calls : List (Store × Args)) (st : Cache × Nat),
      (∀ c ∈ calls, c.2.marketId ≠ m) → (assembleMarkets h calls st).1 m = st.1 m := by
  intro calls
  induction calls with
  | nil => intro st _; rfl
  | cons c cs ih =>
    intro st hall
    have hc : c.2.marketId ≠ m := hall c (List.mem_cons_self _ _)
    have hcs : ∀ d ∈ cs, d.2.marketId ≠ m := fun d hd => hall d (List.mem_cons_of_mem _ hd)
    simp only [assembleMarkets]
    rw [ih _ hcs]
    exact assembleMarket_frame h c.1 st.1 st.2 c.2 m hc

/-! ## The outcome sort: lemmas -/

/-- Insertion keeps the elements. -/
theorem sortInsert_perm {α : Type} (comparefn : α → α → Option Int) (x : α) :
    ∀ l : List α, (sortInsert comparefn x l).Perm (x :: l) := by
  intro l
  induction l with
  | nil => exact List.Perm.refl _
  | cons y ys ih =>
    unfold sortInsert
    split
    · exact List.Perm.refl _
    · exact (List.Perm.cons y ih).trans (List.Perm.swap x y ys)

/-- The sort keeps the elements. -/
theorem arraySort_perm {α : Type} (comparefn : α → α → Option Int) :
    ∀ l : List α, (arraySort comparefn l).Perm l := by
  intro l
  induction l with
  | nil => exact List.Perm.refl _
  | cons x xs ih =>
    unfold arraySort
    exact (sortInsert_perm comparefn x _).trans (List.Perm.cons x ih)

/-- Insertion into a list ordered by a key keeps it ordered, when the comparator is the
difference of the keys on the elements at hand. -/
theorem sortInsert_pairwise {α : Type} (comparefn : α → α → Option Int) (key : α → Int) (x : α) :
    ∀ l : List α, (∀ y ∈ l, sortCompare comparefn x y = key x - key y) →
      l.Pairwise (fun a b => key a ≤ key b) →
      (sortInsert comparefn x l).Pairwise (fun a b => key a ≤ key b) := by
  intro l
  induction l with
  | nil => intro _ _; simp [sortInsert]
  | cons y ys ih =>
    intro hx hl
    have hxy : sortCompare comparefn x y = key x - key y := hx y (List.mem_cons_self _ _)
    have hys : ∀ z ∈ ys, sortCompare comparefn x z = key x - key z :=
      fun z hz => hx z (List.mem_cons_of_mem _ hz)
    obtain ⟨hy, hrest⟩ := List.pairwise_cons.mp hl
    unfold sortInsert
    split
    · rename_i hle
      rw [hxy] at hle
      have hxle : key x ≤ key y := by omega
      refine List.pairwise_cons.mpr ⟨?_, hl⟩
      intro z hz
      rcases List.mem_cons.mp hz with rfl | hz
      · exact hxle
      · exact le_trans hxle (hy z hz)
    · rename_i hgt
      rw [hxy] at hgt
      have hyx : key y ≤ key x := by omega
      refine List.pairwise_cons.mpr ⟨?_, ih hys hrest⟩
      intro z hz
      have hz2 : z ∈ x :: ys := (sortInsert_perm comparefn x ys).mem_iff.mp hz
      rcases List.mem_cons.mp hz2 with rfl | hz2
      · exact hyx
      · exact hy z hz2

/-- The sort orders a list by a key, when the comparator is the difference of the keys
on the elements of the list. -/
theorem arraySort_pairwise {α : Type} (comparefn : α → α → Option Int) (key : α → Int) :
    ∀ l : List α, (∀ x ∈ l, ∀ y ∈ l, sortCompare comparefn x y = key x - key y) →
      (arraySort comparefn l).Pairwise (fun a b => key a ≤ key b) := by
  intro l
  induction l with
  | nil => intro _; simp [arraySort]
  | cons x xs ih =>
    intro hcmp
    unfold arraySort
    apply sortInsert_pairwise
    · intro y hy
      have hy2 : y ∈ xs := (arraySort_perm comparefn xs).mem_iff.mp hy
      exact hcmp x (List.mem_cons_self _ _) y (List.mem_cons_of_mem _ hy2)
    · exact ih fun a ha b hb =>
        hcmp a (List.mem_cons_of_mem _ ha) b (List.mem_cons_of_mem _ hb)

/-- On outcomes whose ids parse, the comparator is the difference of the parsed ids. -/
theorem sortCompare_compareOutcomes (x y : Outcome) (hx : (parseInt x.id).isSome)
    (hy : (parseInt y.id).isSome) :
    sortCompare compareOutcomes x y = (parseInt x.id).getD 0 - (parseInt y.id).getD 0 := by
  obtain ⟨i, hi⟩ := Option.isSome_iff_exists.mp hx
  obtain ⟨j, hj⟩ := Option.isSome_iff_exists.mp hy
  simp [sortCompare, compareOutcomes, hi, hj]

/-! ## Claims on the memoized selector -/

/-- The fields set before the orders and outcomes do not depend on the store: the
timestamp read from it is only compared with the formatted end time, and that
comparison is false whatever the timestamp is. -/
theorem assembleHead_store (h : Helpers) (s1 s2 : Store) (a : Args) :
    assembleHead h s1 a = assembleHead h s2 a := by
  simp [assembleHead, FormattedDate.toNumber, jsLt]

/-- The label of line 236 is `expires` for every store state and every argument list. -/
theorem endTimeLabel_expires (h : Helpers) (store : Store) (a : Args) :
    (assembleMarketBody h store a).endTimeLabel = "expires" := by
  have e : (assembleMarketBody h store a).endTimeLabel = (assembleHead h store a).endTimeLabel := rfl
  rw [e]
  simp [assembleHead, FormattedDate.toNumber, jsLt]

/-- C1: two runs of the assembly body with equal arguments return equal view models
whatever the store states at the two runs are, the store's current timestamp included;
so do two calls of `assembleMarket` that find nothing cached; in particular the
`endTimeLabel` of the two results is the same. -/
theorem C1_view_model_determined_by_arguments (h : Helpers) (s1 s2 : Store) (a : Args) :
    assembleMarketBody h s1 a = assembleMarketBody h s2 a ∧
      (assembleMarket h s1 emptyCache 0 a).market = (assembleMarket h s2 emptyCache 0 a).market ∧
      (assembleMarketBody h s1 a).endTimeLabel = (assembleMarketBody h s2 a).endTimeLabel := by
  have hbody : assembleMarketBody h s1 a = assembleMarketBody h s2 a := by
    unfold assembleMarketBody
    rw [assembleHead_store h s1 s2 a]
  have hmiss : ∀ s, (assembleMarket h s emptyCache 0 a).market = assembleMarketBody h s a :=
    fun s => (assembleMarket_miss h s emptyCache 0 a (by intro entry he; cases he)).2
  exact ⟨hbody, by rw [hmiss s1, hmiss s2, hbody], by rw [hbody]⟩

/-- C2: when `assembleMarket` is called with the argument list of the preceding call
for the same market (calls for other markets may lie between, whatever the store states
are), the body does not run again (the run count stays) and the call returns the view
model that the preceding call returned, leaving the cache as it was. -/
theorem C2_repeated_call_is_served_from_cache (h : Helpers) (s1 s2 : Store) (cache : Cache)
    (runs : Nat) (a : Args) (between : List (Store × Args))
    (hother : ∀ c ∈ between, c.2.marketId ≠ a.marketId) :
    let first := assembleMarket h s1 cache runs a
    let mid := assembleMarkets h between (first.cache, first.runs)
    let second := assembleMarket h s2 mid.1 mid.2 a
    second.market = first.market ∧ second.runs = mid.2 ∧ second.cache = mid.1 := by
  intro first mid second
  have hslot : mid.1 a.marketId = some { args := a, market := first.market } := by
    have hf := assembleMarkets_frame h a.marketId between (first.cache, first.runs) hother
    rw [hf]
    exact assembleMarket_slot h s1 cache runs a
  obtain ⟨hc, hr, hm⟩ := assembleMarket_hit h s2 mid.1 mid.2 a first.market hslot
  exact ⟨hm, hr, hc⟩

/-- C2 at the sample arguments, with one call for market 2 between the two calls. -/
theorem C2_repeated_call_is_served_from_cache_witness :
    (∀ c ∈ [(({ currentTimestamp := 5 } : Store),
        { sampleArgs with marketId := 2 })], c.2.marketId ≠ sampleArgs.marketId) ∧
    (let first := assembleMarket timeValueHelpers { currentTimestamp := 999 } emptyCache 0 sampleArgs
     let mid := assembleMarkets timeValueHelpers
       [({ currentTimestamp := 5 }, { sampleArgs with marketId := 2 })] (first.cache, first.runs)
     let second := assembleMarket timeValueHelpers { currentTimestamp := 2000001 } mid.1 mid.2
       sampleArgs
     second.market = first.market ∧ second.runs = mid.2 ∧ second.cache = mid.1) :=
  ⟨by decide,
   C2_repeated_call_is_served_from_cache timeValueHelpers { currentTimestamp := 999 }
     { currentTimestamp := 2000001 } emptyCache 0 sampleArgs
     [({ currentTimestamp := 5 }, { sampleArgs with marketId := 2 })] (by decide)⟩

/-- C3: calls of `assembleMarket` for market ids other than `m`, however many and with
whatever arguments and store states, leave the cache slot of `m` as the call for `m`
with arguments `a` left it; the next call for `m` with `a` then does not run the body
and returns the cached view model. -/
theorem C3_other_markets_leave_slot_untouched (h : Helpers) (s1 s2 : Store) (cache : Cache)
    (runs : Nat) (m : MarketId) (a : Args) (ha : a.marketId = m) (others : List (Store × Args))
    (hother : ∀ c ∈ others, c.2.marketId ≠ m) :
    let first := assembleMarket h s1 cache runs a
    let mid := assembleMarkets h others (first.cache, first.runs)
    mid.1 m = first.cache m ∧
      mid.1 m = some { args := a, market := first.market } ∧
      (assembleMarket h s2 mid.1 mid.2 a).runs = mid.2 ∧
      (assembleMarket h s2 mid.1 mid.2 a).market = first.market := by
  intro first mid
  subst ha
  have hf : mid.1 a.marketId = first.cache a.marketId :=
    assembleMarkets_frame h a.marketId others (first.cache, first.runs) hother
  have hslot : mid.1 a.marketId = some { args := a, market := first.market } := by
    rw [hf]
    exact assembleMarket_slot h s1 cache runs a
  obtain ⟨_, hr, hm⟩ := assembleMarket_hit h s2 mid.1 mid.2 a first.market hslot
  exact ⟨hf, hslot, hr, hm⟩

/-- C3 at the sample arguments, with calls for the markets 2 and 3 in between. -/
theorem C3_other_markets_leave_slot_untouched_witness :
    sampleArgs.marketId = 1 ∧
    (∀ c ∈ [(({ currentTimestamp := 5 } : Store), { sampleArgs with marketId := 2 }),
        ({ currentTimestamp := 6 }, { sampleArgs with marketId := 3, isFavorite := true })],
      c.2.marketId ≠ 1) ∧
    (let first := assembleMarket timeValueHelpers { currentTimestamp := 999 } emptyCache 0 sampleArgs
     let mid := assembleMarkets timeValueHelpers
       [({ currentTimestamp := 5 }, { sampleArgs with marketId := 2 }),
        ({ currentTimestamp := 6 }, { sampleArgs with marketId := 3, isFavorite := true })]
       (first.cache, first.runs)
     mid.1 1 = first.cache 1 ∧
      mid.1 1 = some { args := sampleArgs, market := first.market } ∧
      (assembleMarket timeValueHelpers { currentTimestamp := 7 } mid.1 mid.2 sampleArgs).runs
        = mid.2 ∧
      (assembleMarket timeValueHelpers { currentTimestamp := 7 } mid.1 mid.2 sampleArgs).market
        = first.market) :=
  ⟨rfl, by decide,
   C3_other_markets_leave_slot_untouched timeValueHelpers { currentTimestamp := 999 }
     { currentTimestamp := 7 } emptyCache 0 1 sampleArgs rfl
     [({ currentTimestamp := 5 }, { sampleArgs with marketId := 2 }),
      ({ currentTimestamp := 6 }, { sampleArgs with marketId := 3, isFavorite := true })]
     (by decide)⟩

/-- C9: the slot of a market holds the arguments of the most recent call only. After
the calls with `a` and then with `b`, two different argument lists of one market, the
slot holds `b`, and a further call with `a` runs the body again (the run count grows by
one) and returns the market assembled by that run. -/
theorem C9_one_slot_eviction (h : Helpers) (s1 s2 s3 : Store) (cache : Cache) (runs : Nat)
    (a b : Args) (hm : a.marketId = b.marketId) (hab : a ≠ b) :
    let c1 := assembleMarket h s1 cache runs a
    let c2 := assembleMarket h s2 c1.cache c1.runs b
    let c3 := assembleMarket h s3 c2.cache c2.runs a
    (c2.cache a.marketId).map Entry.args = some b ∧
      c2.runs = c1.runs + 1 ∧
      c3.runs = c2.runs + 1 ∧
      c3.market = assembleMarketBody h s3 a ∧
      (c3.cache a.marketId).map Entry.args = some a := by
  intro c1 c2 c3
  have h1 : c1.cache b.marketId = some { args := a, market := c1.market } := by
    rw [← hm]
    exact assembleMarket_slot h s1 cache runs a
  have h2 : c2.cache a.marketId = some { args := b, market := c2.market } := by
    rw [hm]
    exact assembleMarket_slot h s2 c1.cache c1.runs b
  have hmiss2 := assembleMarket_miss h s2 c1.cache c1.runs b (by
    intro entry he
    rw [h1] at he
    cases he
    exact hab)
  have hmiss3 := assembleMarket_miss h s3 c2.cache c2.runs a (by
    intro entry he
    rw [h2] at he
    cases he
    exact Ne.symm hab)
  have h3 := assembleMarket_slot h s3 c2.cache c2.runs a
  refine ⟨by rw [h2]; rfl, hmiss2.1, hmiss3.1, hmiss3.2, ?_⟩
  show ((assembleMarket h s3 c2.cache c2.runs a).cache a.marketId).map Entry.args = some a
  rw [h3]
  rfl

/-- C9 at the sample arguments and the same arguments with `isFavorite` set. -/
theorem C9_one_slot_eviction_witness :
    sampleArgs.marketId = ({ sampleArgs with isFavorite := true } : Args).marketId ∧
    sampleArgs ≠ { sampleArgs with isFavorite := true } ∧
    (let c1 := assembleMarket timeValueHelpers { currentTimestamp := 1 } emptyCache 0 sampleArgs
     let c2 := assembleMarket timeValueHelpers { currentTimestamp := 2 } c1.cache c1.runs
       { sampleArgs with isFavorite := true }
     let c3 := assembleMarket timeValueHelpers { currentTimestamp := 3 } c2.cache c2.runs sampleArgs
     (c2.cache sampleArgs.marketId).map Entry.args = some { sampleArgs with isFavorite := true } ∧
      c2.runs = c1.runs + 1 ∧
      c3.runs = c2.runs + 1 ∧
      c3.market = assembleMarketBody timeValueHelpers { currentTimestamp := 3 } sampleArgs ∧
      (c3.cache sampleArgs.marketId).map Entry.args = some sampleArgs) :=
  ⟨rfl, by decide,
   C9_one_slot_eviction timeValueHelpers { currentTimestamp := 1 } { currentTimestamp := 2 }
     { currentTimestamp := 3 } emptyCache 0 sampleArgs { sampleArgs with isFavorite := true }
     rfl (by decide)⟩

/-- C4 (the claim fails): with the outcome keys `1` and `a` the assembled outcomes are
not in non-decreasing order of `parseInt(id, 10)`: `parseInt("a", 10)` is `NaN`, and no
comparison with it holds. -/
theorem C4_unparsable_id_breaks_order :
    ¬ List.Chain' (fun x y : Outcome => jsLe (parseInt x.id) (parseInt y.id) = true)
        (assembleMarketBody timeValueHelpers { currentTimestamp := 0 } unparsableArgs).outcomes := by
  have hout : (assembleMarketBody timeValueHelpers { currentTimestamp := 0 } unparsableArgs).outcomes
      = [{ id := "1", marketId := 1,
           data := { description := some "Yes", volume := none, price := none } },
         { id := "a", marketId := 1,
           data := { description := some "Other", volume := none, price := none } }] := by
    decide
  rw [hout]
  intro hchain
  exact absurd (List.chain'_pair.mp hchain) (by decide)

/-- C4 (amended): for every `marketOutcomesData` whose keys all parse (for each key
`parseInt(key, 10)` is a number), in whatever order the keys come, the assembled
`market.outcomes` holds exactly the outcomes of the keys and every adjacent pair
`(x, y)` of it satisfies `parseInt(x.id, 10) <= parseInt(y.id, 10)`. -/
theorem C4_outcomes_sorted_by_parsed_id (h : Helpers) (store : Store) (a : Args)
    (hparse : ∀ e ∈ a.marketOutcomesData.getD [], (parseInt e.1).isSome) :
    List.Chain' (fun x y : Outcome => jsLe (parseInt x.id) (parseInt y.id) = true)
        (assembleMarketBody h store a).outcomes ∧
      (assembleMarketBody h store a).outcomes.Perm
        ((a.marketOutcomesData.getD []).map fun e =>
          { id := e.1, marketId := a.marketId, data := e.2 }) := by
  have hout : (assembleMarketBody h store a).outcomes = assembleOutcomes a := rfl
  rw [hout]
  unfold assembleOutcomes
  have hmem : ∀ x ∈ (a.marketOutcomesData.getD []).map (fun e =>
      ({ id := e.1, marketId := a.marketId, data := e.2 } : Outcome)), (parseInt x.id).isSome := by
    intro x hx
    obtain ⟨e, he, rfl⟩ := List.mem_map.mp hx
    exact hparse e he
  have hperm := arraySort_perm compareOutcomes ((a.marketOutcomesData.getD []).map (fun e =>
      ({ id := e.1, marketId := a.marketId, data := e.2 } : Outcome)))
  refine ⟨?_, hperm⟩
  have hsorted := arraySort_pairwise compareOutcomes (fun o => (parseInt o.id).getD 0) _
    (fun x hx y hy => sortCompare_compareOutcomes x y (hmem x hx) (hmem y hy))
  apply List.Pairwise.chain'
  refine List.Pairwise.imp_of_mem ?_ hsorted
  intro x y hx hy hle
  obtain ⟨i, hi⟩ := Option.isSome_iff_exists.mp (hmem x (hperm.mem_iff.mp hx))
  obtain ⟨j, hj⟩ := Option.isSome_iff_exists.mp (hmem y (hperm.mem_iff.mp hy))
  simp only [hi, hj, Option.getD_some] at hle
  simp [jsLe, hi, hj, hle]

/-- C4 (amended) at the keys `10`, `9`, `-1`: the outcomes come out as `-1`, `9`, `10`. -/
theorem C4_outcomes_sorted_by_parsed_id_witness :
    (∀ e ∈ ({ sampleArgs with
        marketOutcomesData :=
          some [("10", { description := none, volume := none, price := none }),
                ("9", { description := none, volume := none, price := none }),
                ("-1", { description := none, volume := none, price := none })] } :
          Args).marketOutcomesData.getD [], (parseInt e.1).isSome) ∧
    (assembleMarketBody timeValueHelpers { currentTimestamp := 0 }
      { sampleArgs with
        marketOutcomesData :=
          some [("10", { description := none, volume := none, price := none }),
                ("9", { description := none, volume := none, price := none }),
                ("-1", { description := none, volume := none, price := none })] }).outcomes.map
      Outcome.id = ["-1", "9", "10"] ∧
    List.Chain' (fun x y : Outcome => jsLe (parseInt x.id) (parseInt y.id) = true)
      (assembleMarketBody timeValueHelpers { currentTimestamp := 0 }
        { sampleArgs with
          marketOutcomesData :=
            some [("10", { description := none, volume := none, price := none }),
                  ("9", { description := none, volume := none, price := none }),
                  ("-1", { description := none, volume := none, price := none })] }).outcomes :=
  ⟨by decide, by decide,
   (C4_outcomes_sorted_by_parsed_id timeValueHelpers { currentTimestamp := 0 }
      { sampleArgs with
        marketOutcomesData :=
          some [("10", { description := none, volume := none, price := none }),
                ("9", { description := none, volume := none, price := none }),
                ("-1", { description := none, volume := none, price := none })] }
      (by decide)).1⟩

/-- C5: for a market whose `marketType` is `YES_NO`, `CATEGORICAL` or `SCALAR`, each of
the flags `isYesNo`, `isCategorical`, `isScalar` of the assembled market is set, and is
true exactly when it is the flag of `marketType` (so exactly one is true); the
`scalarDenomination` is absent for `YES_NO` and `CATEGORICAL` and is the one of
`marketData` for `SCALAR`. -/
theorem C5_type_flags_and_scalarDenomination (h : Helpers) (store : Store) (a : Args)
    (htype : a.marketData.marketType = .YES_NO ∨ a.marketData.marketType = .CATEGORICAL ∨
      a.marketData.marketType = .SCALAR) :
    (assembleMarketBody h store a).isYesNo = some (decide (a.marketData.marketType = .YES_NO)) ∧
      (assembleMarketBody h store a).isCategorical
        = some (decide (a.marketData.marketType = .CATEGORICAL)) ∧
      (assembleMarketBody h store a).isScalar = some (decide (a.marketData.marketType = .SCALAR)) ∧
      (assembleMarketBody h store a).scalarDenomination
        = (if a.marketData.marketType = .SCALAR then a.marketData.scalarDenomination else none) := by
  have e1 : (assembleMarketBody h store a).isYesNo = (assembleHead h store a).isYesNo := rfl
  have e2 : (assembleMarketBody h store a).isCategorical = (assembleHead h store a).isCategorical :=
    rfl
  have e3 : (assembleMarketBody h store a).isScalar = (assembleHead h store a).isScalar := rfl
  have e4 : (assembleMarketBody h store a).scalarDenomination
      = (assembleHead h store a).scalarDenomination := rfl
  rw [e1, e2, e3, e4]
  rcases htype with ht | ht | ht <;> simp [assembleHead, ht]

/-- C5 at a scalar market with denomination `USD`. -/
theorem C5_type_flags_and_scalarDenomination_witness :
    (({ sampleArgs with
        marketData :=
          { sampleMarketData with marketType := .SCALAR, scalarDenomination := some "USD" } } :
        Args).marketData.marketType = .YES_NO ∨
      ({ sampleArgs with
        marketData :=
          { sampleMarketData with marketType := .SCALAR, scalarDenomination := some "USD" } } :
        Args).marketData.marketType = .CATEGORICAL ∨
      ({ sampleArgs with
        marketData :=
          { sampleMarketData with marketType := .SCALAR, scalarDenomination := some "USD" } } :
        Args).marketData.marketType = .SCALAR) ∧
    (assembleMarketBody timeValueHelpers { currentTimestamp := 0 }
      { sampleArgs with
        marketData :=
          { sampleMarketData with marketType := .SCALAR, scalarDenomination := some "USD" } }).isScalar
      = some (decide (MarketType.SCALAR = MarketType.SCALAR)) :=
  ⟨by decide,
   (C5_type_flags_and_scalarDenomination timeValueHelpers { currentTimestamp := 0 }
      { sampleArgs with
        marketData :=
          { sampleMarketData with marketType := .SCALAR, scalarDenomination := some "USD" } }
      (by decide)).2.2.1⟩

/-- C8 (the code departs from the claim): for the categorical market of
`categoricalConsensusArgs`, whose consensus has a `proportionCorrect`, the assembled
consensus has a `percentCorrect`, although the market is not a yes/no market. -/
theorem C8_percentCorrect_on_categorical :
    (assembleMarketBody timeValueHelpers { currentTimestamp := 0 } categoricalConsensusArgs).isYesNo
        = some false ∧
      (assembleMarketBody timeValueHelpers { currentTimestamp := 0 }
          categoricalConsensusArgs).isCategorical = some true ∧
      ((assembleMarketBody timeValueHelpers { currentTimestamp := 0 }
          categoricalConsensusArgs).consensus.map MarketConsensus.percentCorrect)
        = some (some "%") := by
  refine ⟨by decide, by decide, ?_⟩
  rfl

/-- The part of C8 that holds: without `marketData.consensus` the assembled
`market.consensus` is `null`. -/
theorem consensus_null_without_consensus (h : Helpers) (store : Store) (a : Args)
    (hc : a.marketData.consensus = none) : (assembleMarketBody h store a).consensus = none := by
  have e : (assembleMarketBody h store a).consensus
      = assembleConsensus h a
          { (assembleMarketBody h store a) with consensus := none } := rfl
  rw [e]
  simp [assembleConsensus, hc]

/-- C10 (the code departs from the claim): for a report on outcome `0`, the id being
the number 0, the account is required to report and the report carries a
`reportedOutcomeId`, yet `isReported` is false and `isPendingReport` is true. -/
theorem C10_reported_outcome_zero_counts_as_pending :
    (reportedZeroArgs.marketReport.map MarketReport.reportedOutcomeId) = some (some (.num 0)) ∧
      (assembleMarketBody timeValueHelpers { currentTimestamp := 0 }
          reportedZeroArgs).isRequiredToReportByAccount = true ∧
      (assembleMarketBody timeValueHelpers { currentTimestamp := 0 } reportedZeroArgs).isReported
        = false ∧
      (assembleMarketBody timeValueHelpers { currentTimestamp := 0 } reportedZeroArgs).isPendingReport
        = true := by
  refine ⟨rfl, rfl, ?_, ?_⟩
  · show (true && truthy (some (.num 0))) = false
    simp [truthy, JsVal.truthy]
  · show (true && !truthy (some (.num 0))) = true
    simp [truthy, JsVal.truthy]

/-- The part of C10 that holds for every report: the account is required to report
exactly when a report exists, `isPendingReport` and `isReported` are never both true,
and one of them is true whenever the account is required to report. -/
theorem report_flags_exclusive (h : Helpers) (store : Store) (a : Args) :
    (assembleMarketBody h store a).isRequiredToReportByAccount = a.marketReport.isSome ∧
      ((assembleMarketBody h store a).isPendingReport &&
        (assembleMarketBody h store a).isReported) = false ∧
      ((assembleMarketBody h store a).isPendingReport ||
        (assembleMarketBody h store a).isReported)
        = (assembleMarketBody h store a).isRequiredToReportByAccount := by
  have e1 : (assembleMarketBody h store a).isRequiredToReportByAccount
      = (assembleHead h store a).isRequiredToReportByAccount := rfl
  have e2 : (assembleMarketBody h store a).isPendingReport
      = (assembleHead h store a).isPendingReport := rfl
  have e3 : (assembleMarketBody h store a).isReported = (assembleHead h store a).isReported := rfl
  rw [e1, e2, e3]
  simp only [assembleHead]
  cases a.marketReport with
  | none => simp
  | some r => cases truthy r.reportedOutcomeId <;> simp

/-- C11 (the code departs from the claim): without `marketOutcomesData`, and with an
empty one, the assembled market has neither `filledOrders` nor `recentlyTraded`: both
are assigned in the callback of the outcome map only, which does not run. -/
theorem C11_no_outcomes_leaves_filledOrders_unset :
    (assembleMarketBody timeValueHelpers { currentTimestamp := 0 } noOutcomesArgs).filledOrders
        = none ∧
      (assembleMarketBody timeValueHelpers { currentTimestamp := 0 } noOutcomesArgs).recentlyTraded
        = none ∧
      (assembleMarketBody timeValueHelpers { currentTimestamp := 0 } emptyOutcomesArgs).filledOrders
        = none ∧
      (assembleMarketBody timeValueHelpers { currentTimestamp := 0 }
          emptyOutcomesArgs).recentlyTraded = none :=
  ⟨rfl, rfl, rfl, rfl⟩

/-- The part of C11 that holds: when `marketOutcomesData` has a key, `filledOrders` is
set to the result of `selectFilledOrders` and `recentlyTraded` to the formatted date of
the timestamp of its first order, or of Unix time 0 when it has no order. -/
theorem filledOrders_set_with_outcomes (h : Helpers) (store : Store) (a : Args)
    (hkeys : a.marketOutcomesData.getD [] ≠ []) :
    ∃ orders,
      (assembleMarketBody h store a).filledOrders = some orders ∧
        (assembleMarketBody h store a).recentlyTraded
          = some (h.convertUnixToFormattedDate
              (match orders.head? with
               | some first => first.timestamp.timestamp
               | none => 0)) := by
  have e1 : (assembleMarketBody h store a).filledOrders
      = assembleFilledOrders h a
          { assembleHead h store a with
            userOpenOrders := assembleUserOpenOrders h a (assembleHead h store a) } := rfl
  have e2 : (assembleMarketBody h store a).recentlyTraded
      = assembleRecentlyTraded h (assembleMarketBody h store a).filledOrders := rfl
  rw [e2, e1]
  unfold assembleFilledOrders
  cases hk : a.marketOutcomesData.getD [] with
  | nil => exact absurd hk hkeys
  | cons e es => exact ⟨_, rfl, rfl⟩

/-- The part of C11 that holds, at two keys and a selector that finds two filled
orders: `recentlyTraded` is the formatted date of the first order's timestamp. -/
theorem filledOrders_set_with_outcomes_sample :
    (assembleMarketBody filledOrderHelpers { currentTimestamp := 0 } sampleArgs).recentlyTraded
      = some { value := 1700000, timestamp := 1700, formatted := "" } := by
  decide

/-- The last reportable outcome of every assembled market is the indeterminate outcome,
and its id follows the field `type` of the market data, not `marketType`. -/
theorem reportableOutcomes_last (h : Helpers) (store : Store) (a : Args) :
    (assembleMarketBody h store a).reportableOutcomes.getLast?
      = some
          { id :=
              if a.marketData.type = some .YES_NO then h.YES_NO_INDETERMINATE_OUTCOME_ID
              else h.CATEGORICAL_SCALAR_INDETERMINATE_OUTCOME_ID
            name := h.INDETERMINATE_OUTCOME_NAME } := by
  have e : (assembleMarketBody h store a).reportableOutcomes
      = h.selectReportableOutcomes a.marketData.marketType (assembleOutcomes a) ++
          [{ id :=
               if a.marketData.type = some .YES_NO then h.YES_NO_INDETERMINATE_OUTCOME_ID
               else h.CATEGORICAL_SCALAR_INDETERMINATE_OUTCOME_ID
             name := h.INDETERMINATE_OUTCOME_NAME }] := rfl
  rw [e]
  simp

/-- C15: when the two indeterminate outcome ids of the constants module are the same
id, the last reportable outcome of every assembled market has the name
`INDETERMINATE_OUTCOME_NAME` and the id of the market type:
`YES_NO_INDETERMINATE_OUTCOME_ID` for a yes/no market (`marketType` is `YES_NO`,
`isYesNo` is true) and `CATEGORICAL_SCALAR_INDETERMINATE_OUTCOME_ID` for the others. -/
theorem C15_indeterminate_outcome_matches_type (h : Helpers) (store : Store) (a : Args)
    (hid : h.YES_NO_INDETERMINATE_OUTCOME_ID = h.CATEGORICAL_SCALAR_INDETERMINATE_OUTCOME_ID) :
    (assembleMarketBody h store a).reportableOutcomes.getLast?
        = some
            { id :=
                if a.marketData.marketType = .YES_NO then h.YES_NO_INDETERMINATE_OUTCOME_ID
                else h.CATEGORICAL_SCALAR_INDETERMINATE_OUTCOME_ID
              name := h.INDETERMINATE_OUTCOME_NAME } ∧
      (assembleMarketBody h store a).reportableOutcomes.getLast?
        = some
            { id :=
                if (assembleMarketBody h store a).isYesNo = some true then
                  h.YES_NO_INDETERMINATE_OUTCOME_ID
                else h.CATEGORICAL_SCALAR_INDETERMINATE_OUTCOME_ID
              name := h.INDETERMINATE_OUTCOME_NAME } := by
  rw [reportableOutcomes_last h store a]
  constructor
  · by_cases h1 : a.marketData.type = some .YES_NO <;>
      by_cases h2 : a.marketData.marketType = .YES_NO <;> simp [h1, h2, hid]
  · by_cases h1 : a.marketData.type = some .YES_NO <;>
      by_cases h2 : (assembleMarketBody h store a).isYesNo = some true <;> simp [h1, h2, hid]

/-- C15 at the yes/no market of `sampleArgs`, with the id `0.5` for both constants: the
last reportable outcome is the indeterminate outcome with the yes/no id. -/
theorem C15_indeterminate_outcome_matches_type_witness :
    timeValueHelpers.YES_NO_INDETERMINATE_OUTCOME_ID
        = timeValueHelpers.CATEGORICAL_SCALAR_INDETERMINATE_OUTCOME_ID ∧
      sampleArgs.marketData.marketType = .YES_NO ∧
      (assembleMarketBody timeValueHelpers { currentTimestamp := 0 }
          sampleArgs).reportableOutcomes.getLast?
        = some
            { id :=
                if sampleArgs.marketData.marketType = .YES_NO then
                  timeValueHelpers.YES_NO_INDETERMINATE_OUTCOME_ID
                else timeValueHelpers.CATEGORICAL_SCALAR_INDETERMINATE_OUTCOME_ID
              name := timeValueHelpers.INDETERMINATE_OUTCOME_NAME } :=
  ⟨rfl, rfl,
   (C15_indeterminate_outcome_matches_type timeValueHelpers { currentTimestamp := 0 } sampleArgs
      rfl).1⟩

/-! ## Claims on the configuration actions -/

/-- C6: whatever the filters are and whatever `augur.filters.ignore` reports,
`teardownFilters` dispatches `FILTER_TEARDOWN_COMPLETE` exactly once, as its last
event. An error is logged and nothing else: with a filter set and an error reported
there is exactly one `console.error`, with the error in its message, and otherwise
there is none; without the console output the trace is the trace of a teardown without
error. `augur.filters.ignore` is called once when a filter is set and not at all when
none is. -/
theorem C6_teardown_completes_once (filters : Filters) (err : Option String) :
    (teardownFilters filters err).count (.dispatch .FILTER_TEARDOWN_COMPLETE) = 1 ∧
      (teardownFilters filters err).getLast? = some (.dispatch .FILTER_TEARDOWN_COMPLETE) ∧
      withoutConsole (teardownFilters filters err) = teardownFilters filters none ∧
      ignoreCalls (teardownFilters filters err) = (if filters.noneSet then 0 else 1) ∧
      consoleErrors (teardownFilters filters err)
        = (if filters.noneSet then []
           else
             match err with
             | some e => if e = "" then [] else ["teardown filters: " ++ e]
             | none => []) ∧
      teardownFilters filters err
        = withoutConsole (teardownFilters filters err).dropLast
            ++ (consoleErrors (teardownFilters filters err)).map Event.consoleError
            ++ [.dispatch .FILTER_TEARDOWN_COMPLETE] := by
  unfold teardownFilters
  cases hn : filters.noneSet
  · rcases err with _ | e
    · simp [withoutConsole, ignoreCalls, consoleErrors]
    · by_cases he : e = ""
      · simp [withoutConsole, ignoreCalls, consoleErrors, he]
      · simp [withoutConsole, ignoreCalls, consoleErrors, he]
  · simp [withoutConsole, ignoreCalls, consoleErrors]

/-- With every filter set and the error `timeout`, the teardown ignores the filters,
logs the error and then dispatches the completion. -/
theorem teardownFilters_logs_error :
    teardownFilters allFilters (some "timeout")
      = [.filtersIgnore true, .consoleError "teardown filters: timeout",
         .dispatch .FILTER_TEARDOWN_COMPLETE] := by
  decide

/-- C7 (the claim fails): with `hosted` false, a configured host and a client on which
no attempt succeeds, `connect` calls `augur.connect` twice: on the configured host
and then on the hosted nodes. -/
theorem C7_fallback_makes_second_attempt :
    connectAttempts (connect unreachableClient (some "http://127.0.0.1:8545") false)
        = [some "http://127.0.0.1:8545", none] ∧
      ¬ (connectAttempts (connect unreachableClient (some "http://127.0.0.1:8545")
          false)).length ≤ 1 := by
  have h : connectAttempts (connect unreachableClient (some "http://127.0.0.1:8545") false)
      = [some "http://127.0.0.1:8545", none] := by decide
  refine ⟨h, ?_⟩
  rw [h]
  decide

/-- C7 (amended): `connect` makes at most two calls of `augur.connect` and none of
them repeats a target: one call on the hosted nodes when `hosted` is true or no host is
configured; otherwise one call on the configured host, followed by one call on the
hosted nodes exactly when the first reports not connected. When the call on the hosted
nodes reports not connected, `SET_IS_HOSTED` false is dispatched and the failure is
written to the console as the last two events, so no further call follows. -/
theorem C7_connect_attempts (augur : Client) (host : Option String) (hosted : Bool) :
    (connectAttempts (connect augur host hosted)).length ≤ 2 ∧
      (connectAttempts (connect augur host hosted)).Nodup ∧
      connectAttempts (connect augur host hosted)
        = (if hosted || !truthyStr host then [none]
           else if augur.connected host then [host] else [host, none]) ∧
      (none ∈ connectAttempts (connect augur host hosted) → augur.connected none = false →
        [Event.dispatch (.SET_IS_HOSTED false),
          Event.consoleError "Couldn't connect to hosted node:"]
          <:+ connect augur host hosted) := by
  have hcb : ∀ x, connectAttempts (connectHostedCb x) = [] := by
    intro x
    unfold connectHostedCb connectAttempts
    split <;> simp
  have hH : connectAttempts (connectHosted augur connectHostedCb) = [none] := by
    unfold connectHosted
    have happ : ∀ l1 l2, connectAttempts (l1 ++ l2) = connectAttempts l1 ++ connectAttempts l2 :=
      fun l1 l2 => List.filterMap_append _ _ _
    rw [happ]
    split <;> rw [hcb] <;> simp [connectAttempts]
  have hS : augur.connected none = false →
      [Event.dispatch (.SET_IS_HOSTED false),
        Event.consoleError "Couldn't connect to hosted node:"]
        <:+ connectHosted augur connectHostedCb := by
    intro hc
    unfold connectHosted connectHostedCb
    simp only [hc, truthyStr]
    exact ⟨[.rpcReset, .augurConnect none, _], rfl⟩
  have hHall : (connectAttempts (connectHosted augur connectHostedCb)).length ≤ 2 ∧
      (connectAttempts (connectHosted augur connectHostedCb)).Nodup := by
    rw [hH]
    simp
  cases hosted with
  | true =>
    have hc : connect augur host true = connectHosted augur connectHostedCb := by
      simp [connect]
    rw [hc]
    exact ⟨hHall.1, hHall.2, by rw [hH]; simp, fun _ h0 => hS h0⟩
  | false =>
    cases host with
    | none =>
      have hc : connect augur none false = connectHosted augur connectHostedCb := by
        simp [connect]
      rw [hc]
      exact ⟨hHall.1, hHall.2, by rw [hH]; simp [truthyStr], fun _ h0 => hS h0⟩
    | some name =>
      by_cases ht : truthyStr (some name) = true
      · by_cases hl : augur.connected (some name) = true
        · have hc : connectAttempts (connect augur (some name) false) = [some name] := by
            unfold connect
            simp only [ht, hl]
            cases truthyStr augur.nodesLocal <;> simp [connectAttempts]
          rw [hc]
          refine ⟨by simp, by simp, by simp [ht, hl], ?_⟩
          intro hmem
          simp at hmem
        · have hl2 : augur.connected (some name) = false := by simpa using hl
          have hc : connect augur (some name) false
              = [.rpcSetLocalNode name, .augurConnect (some name)] ++
                connectHosted augur connectHostedCb := by
            unfold connect
            simp [ht, hl2]
          have ha : connectAttempts (connect augur (some name) false) = [some name, none] := by
            rw [hc]
            have happ : ∀ l1 l2,
                connectAttempts (l1 ++ l2) = connectAttempts l1 ++ connectAttempts l2 :=
              fun l1 l2 => List.filterMap_append _ _ _
            rw [happ, hH]
            simp [connectAttempts]
          rw [ha]
          refine ⟨by simp, by simp, by simp [ht, hl2], ?_⟩
          intro _ h0
          rw [hc]
          exact List.IsSuffix.trans (hS h0) (List.suffix_append _ _)
      · have ht2 : truthyStr (some name) = false := by simpa using ht
        have hc : connect augur (some name) false = connectHosted augur connectHostedCb := by
          simp [connect, ht2]
        rw [hc]
        exact ⟨hHall.1, hHall.2, by rw [hH]; simp [ht2], fun _ h0 => hS h0⟩

/-- C7 (amended) at the client on which no attempt succeeds: the trace ends with the
dispatch of `SET_IS_HOSTED` false and the console error. -/
theorem C7_connect_attempts_witness :
    none ∈ connectAttempts (connect unreachableClient (some "http://127.0.0.1:8545") false) ∧
      unreachableClient.connected none = false ∧
      [Event.dispatch (.SET_IS_HOSTED false),
        Event.consoleError "Couldn't connect to hosted node:"]
        <:+ connect unreachableClient (some "http://127.0.0.1:8545") false :=
  ⟨by decide, rfl,
   (C7_connect_attempts unreachableClient (some "http://127.0.0.1:8545") false).2.2.2
     (by decide) rfl⟩

/-- C14: the market that the price callback updates has the result appended at the end
of the trades of `result.outcome` (alone when there were none, after the earlier ones
otherwise) when `result.user` is the current account, and the trades of that outcome
as they were when it is not; the trades of every other outcome are as they were. For a
result with a `marketId` exactly one `LOAD_MARKETS_SUCCESS` is dispatched, in whose
payload the market after `calculatePnl` stands at `markets[marketId]`; a result
without a `marketId`, and no result, dispatches nothing. -/
theorem C14_price_callback_records_trade (x : MarketActions) (account : Account)
    (markets : MarketId → Option FluxMarket) (result : PriceResult) (loaded : FluxMarket) :
    (setupFilters.addTrade account result loaded).tradesOf result.outcome
        = (if result.user = account then
            some ((loaded.tradesOf result.outcome).getD [] ++ [result])
           else loaded.tradesOf result.outcome) ∧
      (∀ other, other ≠ result.outcome →
        (setupFilters.addTrade account result loaded).tradesOf other = loaded.tradesOf other) ∧
      (∀ id, result.marketId = some id → truthyStr (some id) = true →
        loadMarketsPayloads (setupFilters.price x account markets (some result) loaded)
          = [(Function.update markets (x.bignum id)
                (some (x.calculatePnl (setupFilters.addTrade account result loaded))),
              account)]) ∧
      (truthyStr result.marketId = false →
        loadMarketsPayloads (setupFilters.price x account markets (some result) loaded) = []) ∧
      loadMarketsPayloads (setupFilters.price x account markets none loaded) = [] := by
  refine ⟨?_, ?_, ?_, ?_, rfl⟩
  · unfold setupFilters.addTrade FluxMarket.tradesOf
    by_cases hu : result.user = account
    · simp only [hu, if_true]
      cases ht : loaded.trades with
      | none => simp
      | some trades =>
        simp only [Option.getD_some, Option.bind_some]
        cases hk : trades result.outcome <;> simp [hk]
    · simp [hu]
  · intro other hother
    unfold setupFilters.addTrade FluxMarket.tradesOf
    by_cases hu : result.user = account
    · simp only [hu, if_true]
      cases ht : loaded.trades with
      | none => simp [Function.update, hother]
      | some trades =>
        simp only [Option.getD_some, Option.bind_some]
        cases hk : trades result.outcome <;> simp [Function.update, hother]
    · simp [hu]
  · intro id hid htruthy
    simp [setupFilters.price, setupFilters.priceCallback, loadMarketsPayloads, hid, htruthy]
  · intro hfalsy
    unfold setupFilters.price
    cases hid : result.marketId with
    | none => simp [loadMarketsPayloads, hid]
    | some id =>
      rw [hid] at hfalsy
      simp [loadMarketsPayloads, hid, hfalsy]

/-- C14 at a price change by the current account on outcome `2`, which has one earlier
trade: the trade is appended, and one payload is dispatched with the market at key 7. -/
theorem C14_price_callback_records_trade_witness :
    (setupFilters.addTrade (.address "0xa") samplePriceResult tradedMarket).tradesOf "2"
        = some [{ marketId := some "0x7", user := .address "0xa", outcome := "2", price := 40 },
                samplePriceResult] ∧
      samplePriceResult.marketId = some "0x7" ∧
      truthyStr (some "0x7") = true ∧
      loadMarketsPayloads
          (setupFilters.price sampleMarketActions (.address "0xa") (fun _ => none)
            (some samplePriceResult) tradedMarket)
        = [(Function.update (fun _ => none) (sampleMarketActions.bignum "0x7")
              (some (sampleMarketActions.calculatePnl
                (setupFilters.addTrade (.address "0xa") samplePriceResult tradedMarket))),
            .address "0xa")] :=
  ⟨by decide, rfl, by decide,
   (C14_price_callback_records_trade sampleMarketActions (.address "0xa") (fun _ => none)
      samplePriceResult tradedMarket).2.2.1 "0x7" rfl (by decide)⟩

/-! ## Claims on the filter component -/

/-- The statement `delete query[name]` drops an entry of `name`. -/
theorem deleteParam_cons_self (name : String) (e : String × String) (es : Query)
    (he : e.1 = name) : deleteParam name (e :: es) = deleteParam name es := by
  unfold deleteParam
  exact List.filter_cons_of_neg (by simp [he])

/-- The statement `delete query[name]` keeps an entry of another parameter. -/
theorem deleteParam_cons_other (name : String) (e : String × String) (es : Query)
    (he : e.1 ≠ name) : deleteParam name (e :: es) = e :: deleteParam name es := by
  unfold deleteParam
  exact List.filter_cons_of_pos (by simp [he])

/-- After `delete query[name]` the parameter `name` is not in the query. -/
theorem lookup_deleteParam_self (name : String) (query : Query) :
    (deleteParam name query).lookup name = none := by
  induction query with
  | nil => rfl
  | cons e es ih =>
    by_cases he : e.1 = name
    · rw [deleteParam_cons_self name e es he]
      exact ih
    · rw [deleteParam_cons_other name e es he]
      obtain ⟨k, val⟩ := e
      have hne : (name == k) = false := by
        simp only [beq_eq_false_iff_ne, ne_eq]
        exact fun h => he h.symm
      rw [List.lookup_cons, hne]
      exact ih

/-- The statement `delete query[name]` keeps every other parameter with its value. -/
theorem lookup_deleteParam_other (name other : String) (query : Query) (hne : other ≠ name) :
    (deleteParam name query).lookup other = query.lookup other := by
  induction query with
  | nil => rfl
  | cons e es ih =>
    obtain ⟨k, val⟩ := e
    by_cases he : k = name
    · rw [deleteParam_cons_self name (k, val) es he]
      have hoe : (other == k) = false := by
        simp only [beq_eq_false_iff_ne, ne_eq]
        rw [he]
        exact hne
      rw [List.lookup_cons, hoe]
      exact ih
    · rw [deleteParam_cons_other name (k, val) es he, List.lookup_cons, List.lookup_cons, ih]

/-- C12: each change handler calls `updateFilter` exactly once and changes only its own
field: `changeSortDropdown(v)` passes `sort: v`, `changeFilterDropdown(v)` passes
`filter: v`, `changeMaxFees(v)` passes `maxFee: v`, each with the other three fields
taken from the props; `changeHidePastCutoff()` passes the negation of the prop
`hidePostV2Markets` with `filter`, `sort`, `maxFee` from the props, and passes the same
negated value to `updateHidePostV2Markets`, once. -/
theorem C12_handlers_change_own_field (r : RouteHelpers) (props : Props) (v : String) :
    updateFilterCalls (FilterSearch.changeSortDropdown r props v)
        = [{ filter := props.filter, sort := v, maxFee := props.maxFee,
             hidePostV2Markets := props.hidePostV2Markets }] ∧
      updateFilterCalls (FilterSearch.changeFilterDropdown r props v)
        = [{ filter := v, sort := props.sort, maxFee := props.maxFee,
             hidePostV2Markets := props.hidePostV2Markets }] ∧
      updateFilterCalls (FilterSearch.changeMaxFees r props v)
        = [{ filter := props.filter, sort := props.sort, maxFee := v,
             hidePostV2Markets := props.hidePostV2Markets }] ∧
      updateFilterCalls (FilterSearch.changeHidePastCutoff props)
        = [{ filter := props.filter, sort := props.sort, maxFee := props.maxFee,
             hidePostV2Markets := !props.hidePostV2Markets }] ∧
      updateHideCalls (FilterSearch.changeHidePastCutoff props) = [!props.hidePostV2Markets] := by
  exact ⟨rfl, rfl, rfl, rfl, rfl⟩

/-- C13: when `parseQuery` reads back the query that `makeQuery` writes for the current
parameters without the pagination parameter, each of `changeSortDropdown`,
`changeFilterDropdown` and `changeMaxFees` pushes exactly one history entry; it equals
the current location in every field but `search`, and its `search` parses to the
current parameters without the pagination parameter: that one is absent and every other
parameter has its value. -/
theorem C13_handlers_go_to_page_one (r : RouteHelpers) (props : Props) (v : String)
    (hround :
      r.parseQuery
          (r.makeQuery (deleteParam r.PAGINATION_PARAM_NAME (r.parseQuery props.location.search)))
        = deleteParam r.PAGINATION_PARAM_NAME (r.parseQuery props.location.search)) :
    ∀ trace ∈ [FilterSearch.changeSortDropdown r props v,
        FilterSearch.changeFilterDropdown r props v, FilterSearch.changeMaxFees r props v],
      ∃ pushed,
        historyPushes trace = [pushed] ∧
          pushed = { props.location with search := pushed.search } ∧
          r.parseQuery pushed.search
            = deleteParam r.PAGINATION_PARAM_NAME (r.parseQuery props.location.search) ∧
          (r.parseQuery pushed.search).lookup r.PAGINATION_PARAM_NAME = none ∧
          ∀ name, name ≠ r.PAGINATION_PARAM_NAME →
            (r.parseQuery pushed.search).lookup name
              = (r.parseQuery props.location.search).lookup name := by
  intro trace htrace
  refine ⟨{ props.location with
      search :=
        r.makeQuery (deleteParam r.PAGINATION_PARAM_NAME (r.parseQuery props.location.search)) },
    ?_, rfl, hround, ?_, ?_⟩
  · simp only [List.mem_cons, List.mem_singleton, List.not_mem_nil, or_false] at htrace
    rcases htrace with rfl | rfl | rfl <;>
      simp [historyPushes, FilterSearch.changeSortDropdown, FilterSearch.changeFilterDropdown,
        FilterSearch.changeMaxFees, FilterSearch.goToPageOne]
  · show (r.parseQuery (r.makeQuery _)).lookup r.PAGINATION_PARAM_NAME = none
    rw [hround]
    exact lookup_deleteParam_self _ _
  · intro name hname
    show (r.parseQuery (r.makeQuery _)).lookup name = _
    rw [hround]
    exact lookup_deleteParam_other _ _ _ hname

/-- C13 at the second page of the markets list: `changeSortDropdown` pushes the
location with the search `?tag=x`. -/
theorem C13_handlers_go_to_page_one_witness :
    tableRouteHelpers.parseQuery
        (tableRouteHelpers.makeQuery
          (deleteParam tableRouteHelpers.PAGINATION_PARAM_NAME
            (tableRouteHelpers.parseQuery sampleProps.location.search)))
      = deleteParam tableRouteHelpers.PAGINATION_PARAM_NAME
          (tableRouteHelpers.parseQuery sampleProps.location.search) ∧
    historyPushes (FilterSearch.changeSortDropdown tableRouteHelpers sampleProps "fee")
      = [{ pathname := "/markets", search := "?tag=x", hash := "", state := none, key := none }] ∧
    ∃ pushed,
      historyPushes (FilterSearch.changeSortDropdown tableRouteHelpers sampleProps "fee")
          = [pushed] ∧
        pushed = { sampleProps.location with search := pushed.search } ∧
        tableRouteHelpers.parseQuery pushed.search
          = deleteParam tableRouteHelpers.PAGINATION_PARAM_NAME
              (tableRouteHelpers.parseQuery sampleProps.location.search) ∧
        (tableRouteHelpers.parseQuery pushed.search).lookup tableRouteHelpers.PAGINATION_PARAM_NAME
          = none ∧
        ∀ name, name ≠ tableRouteHelpers.PAGINATION_PARAM_NAME →
          (tableRouteHelpers.parseQuery pushed.search).lookup name
            = (tableRouteHelpers.parseQuery sampleProps.location.search).lookup name :=
  ⟨by decide, by decide,
   C13_handlers_go_to_page_one tableRouteHelpers sampleProps "fee" (by decide)
     (FilterSearch.changeSortDropdown tableRouteHelpers sampleProps "fee")
     (List.mem_cons_self _ _)⟩

end Augur
